import Mathlib

/-!
The webnn-native wire layer: client output bindings and the server callback trampoline.

Shallow embedding of

* `src/webnn_wire/client/NamedOutputs.cpp` (the three file-level statics,
  `NamedOutputs::Set`, `NamedOutputs::OutputResult`), and
* `src/webnn_wire/server/Server.h` (`CallbackUserdata`, `ForwardToServer`,
  `Server::MakeUserdata`).

Conventions.  Host memory is a flat map from addresses to bytes and a pointer
is an address (a natural number); pointer arithmetic is the addition of
naturals (C leaves a wrapping pointer sum undefined, so no reduction modulo the
word size is applied).  The null pointer is address 0.  Stateful code is
written in state-passing style.
-/

namespace webnn_wire

/-- One byte of host memory (`uint8_t`). -/
abbrev Byte := Fin 256

/-- Flat byte-addressed host memory. -/
abbrev Memory := Nat → Byte

/-- The C library routine `memcpy(dst, src, n)`: the `n` bytes at `dst` receive
the `n` bytes found at `src` before the call, every other byte is kept.  (For
overlapping ranges C leaves the result undefined; the model reads every source
byte from the memory as it was before the call.) -/
def memcpy (mem : Memory) (dst src n : Nat) : Memory :=
  fun a => if dst ≤ a ∧ a < dst + n then mem (src + (a - dst)) else mem a

namespace client

/-- The view `WNNArrayBufferView` passed to `NamedOutputs::Set`. -/
structure WNNArrayBufferView where
  buffer : Nat
  byteLength : Nat
  byteOffset : Nat
deriving DecidableEq, Repr

/-- The wire command built by `NamedOutputs::Set`. -/
structure NamedOutputsSetCmd where
  namedOutputsId : Nat
  name : String
  buffer : Nat
  byteLength : Nat
  byteOffset : Nat
deriving DecidableEq, Repr

/-- The receiver of the member functions: a client object with its wire id and
the client it belongs to. -/
structure NamedOutputs where
  id : Nat
  client : Nat
deriving DecidableEq, Repr

/-- The values of the three file-level statics `s_buffer`, `s_byteLength`,
`s_byteOffset` taken together: the binding that is recorded at some moment. -/
structure Binding where
  buffer : Nat
  byteLength : Nat
  byteOffset : Nat
deriving DecidableEq, Repr

/-- One call of `Client::SerializeCommand`: the client that received the command,
the command, and the binding that was recorded in the statics at the moment of
the call.  The last component is what lets the order of the call and of the
stores into the statics be read off the log. -/
structure SerializedCommand where
  client : Nat
  cmd : NamedOutputsSetCmd
  recorded : Binding
deriving DecidableEq, Repr

/-- Everything `NamedOutputs.cpp` reads or writes: the three file-level statics
`s_buffer`, `s_byteLength`, `s_byteOffset`, host memory, and the calls of
`Client::SerializeCommand` made so far (most recent first). -/
structure State where
  s_buffer : Nat
  s_byteLength : Nat
  s_byteOffset : Nat
  mem : Memory
  serialized : List SerializedCommand

/-- The binding recorded in the statics of a state. -/
def State.recorded (w : State) : Binding :=
  { buffer := w.s_buffer, byteLength := w.s_byteLength, byteOffset := w.s_byteOffset }

/-- The state at program start: statics with static storage duration are
zero-initialised and nothing has been serialized. -/
def State.initial (mem : Memory) : State :=
  { s_buffer := 0, s_byteLength := 0, s_byteOffset := 0, mem := mem, serialized := [] }

/-- The call `client->SerializeCommand(cmd)` made in state `w`: the command is
handed to the serializer of client `client`, and the log keeps it together with
the binding recorded in `w`, the state in which the call is made. -/
def SerializeCommand (w : State) (client : Nat) (cmd : NamedOutputsSetCmd) : State :=
  { w with
    serialized := { client := client, cmd := cmd, recorded := w.recorded } :: w.serialized }

namespace NamedOutputs

/-- The member function `NamedOutputs::Set(name, resource)`, statement by
statement in the order of the source: the command is built from the receiver,
the name and the resource (lines 29-34), `client->SerializeCommand(cmd)` is
called (line 36), and then the three statics are overwritten with the
resource's buffer, length and offset (lines 39-41). -/
def Set (w : State) (this : NamedOutputs) (name : String)
    (resource : WNNArrayBufferView) : State :=
  let cmd : NamedOutputsSetCmd :=
    { namedOutputsId := this.id
      name := name
      buffer := resource.buffer
      byteLength := resource.byteLength
      byteOffset := resource.byteOffset }
  let w1 := SerializeCommand w this.client cmd
  { w1 with
    s_buffer := resource.buffer
    s_byteLength := resource.byteLength
    s_byteOffset := resource.byteOffset }

/-- The member function `NamedOutputs::OutputResult(name, buffer, byteLength,
byteOffset)`: one unconditional `memcpy` to `s_buffer + s_byteOffset`, then
`return true`.  Neither the receiver nor the name is used. -/
def OutputResult (w : State) (_this : NamedOutputs) (_name : String)
    (buffer byteLength byteOffset : Nat) : Bool × State :=
  (true, { w with
    mem := memcpy w.mem (w.s_buffer + w.s_byteOffset) (buffer + byteOffset) byteLength })

/-- A series of `Set` calls, each on its own receiver with its own name and
resource, run in order. -/
def SetAll (w : State) (calls : List (NamedOutputs × String × WNNArrayBufferView)) : State :=
  calls.foldl (fun s c => Set s c.1 c.2.1 c.2.2) w

end NamedOutputs

/-! ### Sample data for the concrete checks -/

/-- Host memory holding sixteen delivered bytes 1 .. 16 at addresses 300 .. 315,
sixteen more bytes 101 .. 116 at addresses 400 .. 415, and zero everywhere
else. -/
def sampleMem : Memory := fun a =>
  if 300 ≤ a ∧ a < 316 then ⟨(a - 299) % 256, Nat.mod_lt _ (by decide)⟩
  else if 400 ≤ a ∧ a < 416 then ⟨(a - 299) % 256, Nat.mod_lt _ (by decide)⟩
  else 0

/-- Two distinct client objects. -/
def O1 : NamedOutputs := { id := 1, client := 0 }

/-- The second client object. -/
def O2 : NamedOutputs := { id := 2, client := 0 }

/-- A four-byte region at address 100. -/
def R1 : WNNArrayBufferView := { buffer := 100, byteLength := 4, byteOffset := 0 }

/-- A four-byte region at address 200, disjoint from `R1`. -/
def R2 : WNNArrayBufferView := { buffer := 200, byteLength := 4, byteOffset := 0 }

end client

namespace server

/-- Modelled from the spec: the type `ObjectHandle` of `ServerBase_autogen.h`,
which is not among the sources; the spec gives it as the pair of an id and a
generation. -/
structure ObjectHandle where
  id : Nat
  generation : Nat
deriving DecidableEq, Repr

/-- The record `CallbackUserdata` together with the members a derived record
adds: `server` is the back pointer `Server* const server`, `serverIsAlive` names
the control block the `std::weak_ptr<bool>` observes, and `fields` holds the
members of the derived record (`UserdataT` derives from `CallbackUserdata`). -/
structure CallbackUserdata (U : Type) where
  server : Nat
  serverIsAlive : Nat
  fields : U
deriving DecidableEq, Repr

/-- Members that `ErrorScopeUserdata` adds to `CallbackUserdata`. -/
structure ErrorScopeUserdata where
  context : ObjectHandle
  requestSerial : Nat
deriving DecidableEq, Repr

/-- Members that `ComputeAsyncUserdata` adds to `CallbackUserdata`. -/
structure ComputeAsyncUserdata where
  graph : ObjectHandle
  requestSerial : Nat
  namedOutputsObjectID : Nat
deriving DecidableEq, Repr

/-- A `Server` object: the member `mIsAlive` (the control block its
`std::shared_ptr<bool>` owns) and the remaining members, kept abstract. -/
structure Server (σ : Type) where
  mIsAlive : Nat
  members : σ

/-- One invocation of a Server handler: the server it ran on, the backend
arguments in order, the userdata pointer passed last and the record found
there. -/
structure HandlerCall (α U : Type) where
  server : Nat
  args : List α
  userdata : Nat
  data : CallbackUserdata U

/-- The server side of the world.
* `servers` gives the Server object found at each address;
* `useCount` is the number of `shared_ptr` owners of each control block (a
  `weak_ptr` has expired exactly when it is zero);
* `heap` holds the userdata records allocated with `new` and not yet deleted,
  `heapNext` is the address the next `new` returns;
* `deleted` lists the addresses given to `delete`, most recent first;
* `calls` lists the handler invocations made, most recent first. -/
structure World (σ α U : Type) where
  servers : Nat → Server σ
  useCount : Nat → Nat
  heap : Nat → Option (CallbackUserdata U)
  heapNext : Nat
  deleted : List Nat
  calls : List (HandlerCall α U)

variable {σ α U R : Type}

/-- The test `weak_ptr::expired()` on the control block `block`. -/
def expired (w : World σ α U) (block : Nat) : Bool :=
  w.useCount block == 0

/-- The destructor of `std::unique_ptr<UserdataT>` holding `p`: `delete p`. -/
def deleteUserdata (w : World σ α U) (p : Nat) : World σ α U :=
  { w with
    heap := fun q => if q = p then none else w.heap q
    deleted := p :: w.deleted }

/-- The member call `(server->*Func)(args..., userdata)`: the handler runs on the
Server object at `server`, its return value is dropped, and the invocation is
recorded. -/
def invokeHandler (Func : Server σ → List α → Nat → CallbackUserdata U → R × Server σ)
    (w : World σ α U) (server : Nat) (args : List α) (userdata : Nat)
    (data : CallbackUserdata U) : World σ α U :=
  let s := (Func (w.servers server) args userdata data).2
  { w with
    servers := fun q => if q = server then s else w.servers q
    calls := { server := server, args := args, userdata := userdata, data := data } :: w.calls }

namespace ForwardToServer
namespace UntypedCallbackImpl

/-- The static function `UntypedCallbackImpl::ForwardToServer<Func>(args...,
void* userdata)`.  The pointer is taken into a `unique_ptr<UserdataT>`; if the
record's `serverIsAlive` has expired the function returns at once; otherwise the
handler is called on `data->server` with the arguments and `data.get()`.  On
both paths the `unique_ptr` goes out of scope and deletes the record.  The
result is `none` when `userdata` does not point at a live record (the source
dereferences it unconditionally). -/
def ForwardToServer (Func : Server σ → List α → Nat → CallbackUserdata U → R × Server σ)
    (w : World σ α U) (args : List α) (userdata : Nat) : Option (World σ α U) :=
  match w.heap userdata with
  | none => none
  | some data =>
    if expired w data.serverIsAlive then
      some (deleteUserdata w userdata)
    else
      some (deleteUserdata (invokeHandler Func w data.server args userdata data) userdata)

end UntypedCallbackImpl

/-- The static function `ForwardToServer<...>::Func<F>()`: the callable it returns
is `UntypedCallback::ForwardToServer<F>`. -/
def Func (F : Server σ → List α → Nat → CallbackUserdata U → R × Server σ) :
    World σ α U → List α → Nat → Option (World σ α U) :=
  UntypedCallbackImpl.ForwardToServer F

end ForwardToServer

/-- The member function `Server::MakeUserdata<T>()` called on the server at `this`:
`new T(this, mIsAlive)`.  The record is placed at a fresh address, with the back
pointer `this` and an observer of the server's `mIsAlive`; `fields` are the
members of the derived record.  Returns the pointer and the new world. -/
def Server.MakeUserdata (w : World σ α U) (this : Nat) (fields : U) : Nat × World σ α U :=
  (w.heapNext,
   { w with
     heap := fun q =>
       if q = w.heapNext then
         some { server := this, serverIsAlive := (w.servers this).mIsAlive, fields := fields }
       else w.heap q
     heapNext := w.heapNext + 1 })

/-! ### Sample data for the concrete checks -/

/-- A handler on a server whose remaining members are a list of numbers: it
appends the sum of its arguments and the request serial of the userdata. -/
def sampleHandler (s : Server (List Nat)) (args : List Nat) (_p : Nat)
    (d : CallbackUserdata ComputeAsyncUserdata) : Unit × Server (List Nat) :=
  ((), { s with members := (args.sum + d.fields.requestSerial) :: s.members })

/-- A userdata record for server 7 observing control block 3. -/
def sampleData : CallbackUserdata ComputeAsyncUserdata :=
  { server := 7, serverIsAlive := 3,
    fields := { graph := { id := 1, generation := 0 }, requestSerial := 5,
                namedOutputsObjectID := 2 } }

/-- A world with one server at address 7 and the record `sampleData` at address
40; `owners` is the number of owners of control block 3. -/
def sampleWorld (owners : Nat) : World (List Nat) Nat ComputeAsyncUserdata :=
  { servers := fun _ => { mIsAlive := 3, members := [] }
    useCount := fun b => if b = 3 then owners else 0
    heap := fun q => if q = 40 then some sampleData else none
    heapNext := 41
    deleted := []
    calls := [] }

end server

/-! ## Theorems -/

/-! ### The library copy -/

theorem memcpy_dst (mem : Memory) (dst src n i : Nat) (h : i < n) :
    memcpy mem dst src n (dst + i) = mem (src + i) := by
  simp [memcpy, h]

theorem memcpy_frame (mem : Memory) (dst src n a : Nat) (h : ¬ (dst ≤ a ∧ a < dst + n)) :
    memcpy mem dst src n a = mem a := by
  simp only [memcpy]
  rw [if_neg h]

theorem memcpy_zero (mem : Memory) (dst src : Nat) : memcpy mem dst src 0 = mem := by
  funext a
  apply memcpy_frame
  omega

namespace client
open NamedOutputs

/-! ### Facts about `Set` shared by the results below -/

theorem Set_mem (w : State) (this : NamedOutputs) (name : String) (r : WNNArrayBufferView) :
    (Set w this name r).mem = w.mem := rfl

theorem Set_statics (w : State) (this : NamedOutputs) (name : String) (r : WNNArrayBufferView) :
    (Set w this name r).s_buffer = r.buffer ∧
    (Set w this name r).s_byteLength = r.byteLength ∧
    (Set w this name r).s_byteOffset = r.byteOffset := ⟨rfl, rfl, rfl⟩

theorem SetAll_mem (calls : List (NamedOutputs × String × WNNArrayBufferView)) (w : State) :
    (SetAll w calls).mem = w.mem := by
  induction calls generalizing w with
  | nil => rfl
  | cons c cs ih =>
    simp only [SetAll, List.foldl_cons]
    exact (ih (Set w c.1 c.2.1 c.2.2)).trans (Set_mem w c.1 c.2.1 c.2.2)

theorem SetAll_snoc (calls : List (NamedOutputs × String × WNNArrayBufferView))
    (c : NamedOutputs × String × WNNArrayBufferView) (w : State) :
    SetAll w (calls ++ [c]) = Set (SetAll w calls) c.1 c.2.1 c.2.2 := by
  simp [SetAll, List.foldl_append]

/-! ### C4: delivery with no binding -/

/-- C4 fails on the code, at two deliveries for which no region was bound.
In the start state, where no `Set` has ever run, the delivery
`O1.OutputResult("out", 300, 0, 0)` returns true, not false.  And after the
only `Set` of the run was made through the other object `O2` for its region
`R2`, the delivery `O1.OutputResult("out", 300, 4, 0)` returns true and writes:
byte 200 changes from 0 to 1. -/
theorem OutputResult_unbound_not_refused :
    ¬ ((OutputResult (State.initial sampleMem) O1 "out" 300 0 0).1 = false ∧
       (OutputResult (State.initial sampleMem) O1 "out" 300 0 0).2.mem = sampleMem) ∧
    (OutputResult (Set (State.initial sampleMem) O2 "out" R2) O1 "out" 300 4 0).1 ≠ false ∧
    (Set (State.initial sampleMem) O2 "out" R2).mem 200 = 0 ∧
    (OutputResult (Set (State.initial sampleMem) O2 "out" R2) O1 "out" 300 4 0).2.mem 200
      = 1 := by
  refine ⟨fun h => absurd h.1 (by decide), by decide, by decide, by decide⟩

/-- C4 as amended.  A delivery for which no region was bound is not refused.
A delivery of length 0 returns true and leaves the whole state, memory
included, as it was.  When the statics record a buffer that is not null (left
by an earlier `Set`, made for another delivery), a delivery of any length `n`
returns true, copies its `n` bytes to that recorded buffer at the recorded
offset, and changes no byte outside these `n` bytes.  Nothing is stated about a
delivery of positive length made while the recorded buffer is null. -/
theorem OutputResult_unbound_returns_true (w : State) (this : NamedOutputs) (name : String)
    (src n off : Nat) :
    (n = 0 → OutputResult w this name src n off = (true, w)) ∧
    (w.s_buffer ≠ 0 →
      (OutputResult w this name src n off).1 = true ∧
      (∀ i, i < n →
        (OutputResult w this name src n off).2.mem (w.s_buffer + w.s_byteOffset + i)
          = w.mem (src + off + i)) ∧
      (∀ a, ¬ (w.s_buffer + w.s_byteOffset ≤ a ∧ a < w.s_buffer + w.s_byteOffset + n) →
        (OutputResult w this name src n off).2.mem a = w.mem a)) := by
  refine ⟨?_, fun _ => ⟨rfl, ?_, ?_⟩⟩
  · intro hn
    subst hn
    simp [OutputResult, memcpy_zero]
  · intro i hi
    exact memcpy_dst w.mem (w.s_buffer + w.s_byteOffset) (src + off) n i hi
  · intro a ha
    exact memcpy_frame w.mem (w.s_buffer + w.s_byteOffset) (src + off) n a ha

/-- The amended C4 at the two deliveries above: in the start state a delivery of
length 0 returns true and leaves the state as it was; with `R2` left recorded
by a `Set` through `O2`, the delivery through `O1` returns true, puts the first
delivered byte at 200 and keeps byte 204. -/
theorem OutputResult_unbound_returns_true_witness :
    OutputResult (State.initial sampleMem) O1 "out" 300 0 0
      = (true, State.initial sampleMem) ∧
    (Set (State.initial sampleMem) O2 "out" R2).s_buffer ≠ 0 ∧
    (OutputResult (Set (State.initial sampleMem) O2 "out" R2) O1 "out" 300 4 0).1 = true ∧
    (OutputResult (Set (State.initial sampleMem) O2 "out" R2) O1 "out" 300 4 0).2.mem
        ((Set (State.initial sampleMem) O2 "out" R2).s_buffer
          + (Set (State.initial sampleMem) O2 "out" R2).s_byteOffset + 0)
      = (Set (State.initial sampleMem) O2 "out" R2).mem (300 + 0 + 0) ∧
    (OutputResult (Set (State.initial sampleMem) O2 "out" R2) O1 "out" 300 4 0).2.mem 204
      = (Set (State.initial sampleMem) O2 "out" R2).mem 204 :=
  ⟨(OutputResult_unbound_returns_true (State.initial sampleMem) O1 "out" 300 0 0).1 rfl,
   by decide,
   ((OutputResult_unbound_returns_true (Set (State.initial sampleMem) O2 "out" R2)
      O1 "out" 300 4 0).2 (by decide)).1,
   ((OutputResult_unbound_returns_true (Set (State.initial sampleMem) O2 "out" R2)
      O1 "out" 300 4 0).2 (by decide)).2.1 0 (by decide),
   ((OutputResult_unbound_returns_true (Set (State.initial sampleMem) O2 "out" R2)
      O1 "out" 300 4 0).2 (by decide)).2.2 204 (by decide)⟩

/-! ### C5: a delivery after a binding copies the bytes -/

/-- C6 fails on the code.  `R1` is bound through `O1`, then the disjoint `R2`
through the distinct object `O2`; the delivery through `O1` of the four bytes
1 2 3 4 leaves `R1` all zero and overwrites `R2` with them. -/
theorem bindings_not_keyed_per_object :
    O1 ≠ O2 ∧
    (OutputResult (Set (Set (State.initial sampleMem) O1 "out" R1) O2 "out" R2)
        O1 "out" 300 4 0).2.mem 100 = 0 ∧
    sampleMem 300 = 1 ∧
    sampleMem 200 = 0 ∧
    (OutputResult (Set (Set (State.initial sampleMem) O1 "out" R1) O2 "out" R2)
        O1 "out" 300 4 0).2.mem 200 = 1 := by
  decide

/-- C6 as amended.  The binding is one slot shared by all objects: with `R1`
bound through `O1` and then `R2` through `O2`, a delivery through `O1` returns
true, writes the delivered bytes at the start of `R2`, the region bound last,
and leaves every byte outside the written range as it was. -/
theorem bindings_shared_slot (w : State) (o1 o2 : NamedOutputs) (n1 n2 name : String)
    (r1 r2 : WNNArrayBufferView) (src n off : Nat) :
    (OutputResult (Set (Set w o1 n1 r1) o2 n2 r2) o1 name src n off).1 = true ∧
    (∀ i, i < n →
      (OutputResult (Set (Set w o1 n1 r1) o2 n2 r2) o1 name src n off).2.mem
          (r2.buffer + r2.byteOffset + i) = w.mem (src + off + i)) ∧
    (∀ a, ¬ (r2.buffer + r2.byteOffset ≤ a ∧ a < r2.buffer + r2.byteOffset + n) →
      (OutputResult (Set (Set w o1 n1 r1) o2 n2 r2) o1 name src n off).2.mem a = w.mem a) := by
  refine ⟨rfl, ?_, ?_⟩
  · intro i hi
    exact memcpy_dst w.mem (r2.buffer + r2.byteOffset) (src + off) n i hi
  · intro a ha
    exact memcpy_frame w.mem (r2.buffer + r2.byteOffset) (src + off) n a ha

/-- The amended C6 at the two sample objects and regions: the bytes land in `R2`
and byte 100 of `R1`, outside the written range, is kept. -/
theorem bindings_shared_slot_witness :
    (∀ i, i < 4 →
      (OutputResult (Set (Set (State.initial sampleMem) O1 "out" R1) O2 "out" R2)
          O1 "out" 300 4 0).2.mem (200 + 0 + i) = sampleMem (300 + 0 + i)) ∧
    (OutputResult (Set (Set (State.initial sampleMem) O1 "out" R1) O2 "out" R2)
        O1 "out" 300 4 0).2.mem 100 = sampleMem 100 :=
  ⟨(bindings_shared_slot (State.initial sampleMem) O1 O2 "out" "out" "out" R1 R2 300 4 0).2.1,
   (bindings_shared_slot (State.initial sampleMem) O1 O2 "out" "out" "out" R1 R2 300 4 0).2.2
     100 (by decide)⟩

/-! ### C7: the bound length is not checked -/

/-- C7 fails on the code.  With the four-byte region `R1` bound (range 100 .. 103),
a delivery of 8 bytes is not refused: it returns true and byte 104, outside the
bound range, changes from 0 to the fifth delivered byte. -/
theorem OutputResult_writes_past_bound :
    R1.byteLength < 8 ∧
    ¬ (R1.buffer + R1.byteOffset ≤ 104 ∧ 104 < R1.buffer + R1.byteOffset + R1.byteLength) ∧
    (OutputResult (Set (State.initial sampleMem) O1 "out" R1) O1 "out" 300 8 0).1 = true ∧
    (Set (State.initial sampleMem) O1 "out" R1).mem 104 = 0 ∧
    (OutputResult (Set (State.initial sampleMem) O1 "out" R1) O1 "out" 300 8 0).2.mem 104 = 5 := by
  decide

/-- C7 as amended.  With a region of length `L` bound at offset `o` of buffer `B`,
a delivery of `n ≤ L` bytes modifies no byte outside the bound range
`[B+o, B+o+L)`.  The bound length is not checked, and a delivery of any length
returns true and modifies no byte outside `[B+o, B+o+n)`. -/
theorem OutputResult_within_bound (w : State) (this : NamedOutputs) (name : String)
    (res : WNNArrayBufferView) (this2 : NamedOutputs) (name2 : String) (src n off : Nat) :
    (OutputResult (Set w this name res) this2 name2 src n off).1 = true ∧
    (∀ a, ¬ (res.buffer + res.byteOffset ≤ a ∧ a < res.buffer + res.byteOffset + n) →
      (OutputResult (Set w this name res) this2 name2 src n off).2.mem a = w.mem a) ∧
    (n ≤ res.byteLength →
      ∀ a, ¬ (res.buffer + res.byteOffset ≤ a ∧
              a < res.buffer + res.byteOffset + res.byteLength) →
        (OutputResult (Set w this name res) this2 name2 src n off).2.mem a = w.mem a) := by
  have hframe : ∀ a, ¬ (res.buffer + res.byteOffset ≤ a ∧ a < res.buffer + res.byteOffset + n) →
      (OutputResult (Set w this name res) this2 name2 src n off).2.mem a = w.mem a := by
    intro a ha
    exact memcpy_frame w.mem (res.buffer + res.byteOffset) (src + off) n a ha
  refine ⟨rfl, hframe, ?_⟩
  intro hn a ha
  exact hframe a (by omega)

/-- The amended C7 at a delivery of 4 bytes into the four-byte region `R1`: byte
104, just past the bound range, is kept. -/
theorem OutputResult_within_bound_witness :
    (4 : Nat) ≤ R1.byteLength ∧
    (OutputResult (Set (State.initial sampleMem) O1 "out" R1) O1 "out" 300 4 0).2.mem 104
      = sampleMem 104 :=
  ⟨by decide,
   (OutputResult_within_bound (State.initial sampleMem) O1 "out" R1 O1 "out" 300 4 0).2.2
     (by decide) 104 (by decide)⟩

/-! ### C8: a binding is not consumed by a delivery -/

/-- C8 fails on the code.  `R1` is bound once; a first delivery copies the bytes
1 2 3 4 into it; a second delivery with no `Set` in between returns true and
replaces the first byte of `R1` by 101. -/
theorem second_delivery_not_refused :
    (OutputResult (Set (State.initial sampleMem) O1 "out" R1) O1 "out" 300 4 0).2.mem 100 = 1 ∧
    (OutputResult
        (OutputResult (Set (State.initial sampleMem) O1 "out" R1) O1 "out" 300 4 0).2
        O1 "out" 400 4 0).1 = true ∧
    (OutputResult
        (OutputResult (Set (State.initial sampleMem) O1 "out" R1) O1 "out" 300 4 0).2
        O1 "out" 400 4 0).2.mem 100 = 101 := by
  decide

/-- C8 as amended.  A delivery leaves the recorded binding in place: after one
`Set` and a first delivery, the three recorded values are still those of the
bound region, and a second delivery with no `Set` in between returns true,
copies its bytes to the start of the same region, and leaves every byte outside
the range it writes as the first delivery left it. -/
theorem binding_survives_delivery (w : State) (this : NamedOutputs) (name : String)
    (res : WNNArrayBufferView) (src1 n1 off1 src2 n2 off2 : Nat) :
    ((OutputResult (Set w this name res) this name src1 n1 off1).2.s_buffer = res.buffer ∧
     (OutputResult (Set w this name res) this name src1 n1 off1).2.s_byteLength
       = res.byteLength ∧
     (OutputResult (Set w this name res) this name src1 n1 off1).2.s_byteOffset
       = res.byteOffset) ∧
    (OutputResult (OutputResult (Set w this name res) this name src1 n1 off1).2
        this name src2 n2 off2).1 = true ∧
    (∀ i, i < n2 →
      (OutputResult (OutputResult (Set w this name res) this name src1 n1 off1).2
          this name src2 n2 off2).2.mem (res.buffer + res.byteOffset + i) =
      (OutputResult (Set w this name res) this name src1 n1 off1).2.mem (src2 + off2 + i)) ∧
    (∀ a, ¬ (res.buffer + res.byteOffset ≤ a ∧ a < res.buffer + res.byteOffset + n2) →
      (OutputResult (OutputResult (Set w this name res) this name src1 n1 off1).2
          this name src2 n2 off2).2.mem a =
      (OutputResult (Set w this name res) this name src1 n1 off1).2.mem a) := by
  refine ⟨⟨rfl, rfl, rfl⟩, rfl, ?_, ?_⟩
  · intro i hi
    exact memcpy_dst _ (res.buffer + res.byteOffset) (src2 + off2) n2 i hi
  · intro a ha
    exact memcpy_frame _ (res.buffer + res.byteOffset) (src2 + off2) n2 a ha

/-- The amended C8 at the sample region: the second delivery of two bytes puts
101 at byte 100 and keeps byte 102 as the first delivery left it. -/
theorem binding_survives_delivery_witness :
    (OutputResult (OutputResult (Set (State.initial sampleMem) O1 "out" R1) O1 "out" 300 4 0).2
        O1 "out" 400 2 0).2.mem (R1.buffer + R1.byteOffset + 0) =
      (OutputResult (Set (State.initial sampleMem) O1 "out" R1) O1 "out" 300 4 0).2.mem
        (400 + 0 + 0) ∧
    (OutputResult (OutputResult (Set (State.initial sampleMem) O1 "out" R1) O1 "out" 300 4 0).2
        O1 "out" 400 2 0).2.mem 102 =
      (OutputResult (Set (State.initial sampleMem) O1 "out" R1) O1 "out" 300 4 0).2.mem 102 :=
  ⟨(binding_survives_delivery (State.initial sampleMem) O1 "out" R1 300 4 0 400 2 0).2.2.1
     0 (by decide),
   (binding_survives_delivery (State.initial sampleMem) O1 "out" R1 300 4 0 400 2 0).2.2.2
     102 (by decide)⟩

/-! ### C9: the order of serializing and recording in `Set` -/

/-- C9 fails on the code.  In the first `Set` of a run, for the region `R1`
(buffer 100, length 4, offset 0), the one command handed to the serializer
carries buffer 100 and length 4, and the binding recorded at the moment of that
call is the zero-initialised one, which is not the resource's. -/
theorem Set_serializes_before_recording :
    (Set (State.initial sampleMem) O1 "out" R1).serialized =
      [{ client := 0,
         cmd := { namedOutputsId := 1, name := "out", buffer := 100, byteLength := 4,
                  byteOffset := 0 },
         recorded := { buffer := 0, byteLength := 0, byteOffset := 0 } }] ∧
    ((Set (State.initial sampleMem) O1 "out" R1).serialized.map SerializedCommand.recorded ≠
      [{ buffer := R1.buffer, byteLength := R1.byteLength, byteOffset := R1.byteOffset }]) := by
  decide

/-- C9 as amended.  `Set` hands the command to the serializer first and records
the binding afterwards.  `Set` makes exactly one call of the serializer; the
command carries the receiver's id, the name and the resource's buffer, length
and offset; the binding recorded at the moment of that call is the one from
before `Set` was entered, so it equals the resource's exactly when the statics
already held the resource's values before the call.  When `Set` returns, the
recorded binding equals the resource's buffer, length and offset, and no
memory has changed. -/
theorem Set_serialize_then_record (w : State) (this : NamedOutputs) (name : String)
    (res : WNNArrayBufferView) :
    (Set w this name res).serialized =
      { client := this.client,
        cmd := { namedOutputsId := this.id, name := name, buffer := res.buffer,
                 byteLength := res.byteLength, byteOffset := res.byteOffset },
        recorded := w.recorded } :: w.serialized ∧
    ((Set w this name res).serialized.head?.map SerializedCommand.recorded =
        some { buffer := res.buffer, byteLength := res.byteLength,
               byteOffset := res.byteOffset } ↔
      (w.s_buffer = res.buffer ∧ w.s_byteLength = res.byteLength ∧
       w.s_byteOffset = res.byteOffset)) ∧
    (Set w this name res).recorded =
      { buffer := res.buffer, byteLength := res.byteLength, byteOffset := res.byteOffset } ∧
    (Set w this name res).mem = w.mem := by
  refine ⟨rfl, ?_, rfl, rfl⟩
  have hlog : (Set w this name res).serialized =
      { client := this.client,
        cmd := { namedOutputsId := this.id, name := name, buffer := res.buffer,
                 byteLength := res.byteLength, byteOffset := res.byteOffset },
        recorded := w.recorded } :: w.serialized := rfl
  rw [hlog]
  simp [State.recorded]

/-- The amended C9 at a second `Set` of the same region: the statics already hold
the values of `R1` when the second call is entered, and only then does the
binding recorded at the hand-over equal the resource's. -/
theorem Set_serialize_then_record_witness :
    (Set (Set (State.initial sampleMem) O1 "out" R1) O1 "out" R1).serialized.head?.map
        SerializedCommand.recorded =
      some { buffer := R1.buffer, byteLength := R1.byteLength, byteOffset := R1.byteOffset } :=
  (Set_serialize_then_record (Set (State.initial sampleMem) O1 "out" R1) O1 "out" R1).2.1.mpr
    ⟨rfl, rfl, rfl⟩

/-! ### C10: what a delivery depends on -/

/-- C10.  After any series of `Set` calls ending with a `Set` of the resource
`last` (on any receivers, with any names, from any state `w`), a delivery
`OutputResult(name, src, n, off)` on any receiver with any name returns true;
the memory afterwards is the memory before with the `n` source bytes copied to
offset `last.byteOffset` of `last.buffer`, which is also the recorded offset of
the recorded buffer; the three recorded values are unchanged; the outcome is the
same whatever recorded length is put in place of `s_byteLength`; and it is the
same for every receiver and name of the delivery. -/
theorem OutputResult_depends_on_last_Set (w : State)
    (sets : List (NamedOutputs × String × WNNArrayBufferView))
    (lastThis : NamedOutputs) (lastName : String) (last : WNNArrayBufferView)
    (this : NamedOutputs) (name : String) (src n off : Nat) :
    (OutputResult (SetAll w (sets ++ [(lastThis, lastName, last)])) this name src n off).1
      = true ∧
    (OutputResult (SetAll w (sets ++ [(lastThis, lastName, last)])) this name src n off).2.mem
      = memcpy w.mem (last.buffer + last.byteOffset) (src + off) n ∧
    ((SetAll w (sets ++ [(lastThis, lastName, last)])).s_buffer = last.buffer ∧
     (SetAll w (sets ++ [(lastThis, lastName, last)])).s_byteOffset = last.byteOffset) ∧
    ((OutputResult (SetAll w (sets ++ [(lastThis, lastName, last)])) this name src n off).2.s_buffer
        = (SetAll w (sets ++ [(lastThis, lastName, last)])).s_buffer ∧
     (OutputResult (SetAll w (sets ++ [(lastThis, lastName, last)])) this name src n
          off).2.s_byteLength
        = (SetAll w (sets ++ [(lastThis, lastName, last)])).s_byteLength ∧
     (OutputResult (SetAll w (sets ++ [(lastThis, lastName, last)])) this name src n
          off).2.s_byteOffset
        = (SetAll w (sets ++ [(lastThis, lastName, last)])).s_byteOffset) ∧
    (∀ len : Nat,
      (OutputResult { SetAll w (sets ++ [(lastThis, lastName, last)]) with s_byteLength := len }
          this name src n off).1 = true ∧
      (OutputResult { SetAll w (sets ++ [(lastThis, lastName, last)]) with s_byteLength := len }
          this name src n off).2.mem =
        (OutputResult (SetAll w (sets ++ [(lastThis, lastName, last)])) this name src n
          off).2.mem) ∧
    (∀ (this2 : NamedOutputs) (name2 : String),
      OutputResult (SetAll w (sets ++ [(lastThis, lastName, last)])) this2 name2 src n off =
      OutputResult (SetAll w (sets ++ [(lastThis, lastName, last)])) this name src n off) := by
  have hmem : (SetAll w (sets ++ [(lastThis, lastName, last)])).mem = w.mem := SetAll_mem _ w
  have hsnoc := SetAll_snoc sets (lastThis, lastName, last) w
  have hb : (SetAll w (sets ++ [(lastThis, lastName, last)])).s_buffer = last.buffer := by
    rw [hsnoc]; rfl
  have ho : (SetAll w (sets ++ [(lastThis, lastName, last)])).s_byteOffset = last.byteOffset := by
    rw [hsnoc]; rfl
  refine ⟨rfl, ?_, ⟨hb, ho⟩, ⟨rfl, rfl, rfl⟩, ?_, fun _ _ => rfl⟩
  · show memcpy _ _ _ _ = _
    rw [hmem, hb, ho]
  · intro len
    exact ⟨rfl, rfl⟩

end client

namespace server

variable {σ α U R : Type}

/-! ### C1: an expired observer makes the callable a no-op on the server -/

/-- C1.  When the record at `userdata` has an expired liveness observer, the
callable returns with the Server objects, the list of handler invocations and
the control blocks exactly as they were; and neither the handler nor any Server
object is consulted: with any other handler and any other contents of the
Server objects the call ends in the same world (apart from those contents,
which it passes through). -/
theorem ForwardToServer_expired_leaves_server
    (F : Server σ → List α → Nat → CallbackUserdata U → R × Server σ)
    (w : World σ α U) (args : List α) (userdata : Nat) (d : CallbackUserdata U)
    (hd : w.heap userdata = some d) (hx : expired w d.serverIsAlive = true) :
    ∃ w2, ForwardToServer.Func F w args userdata = some w2 ∧
      w2.servers = w.servers ∧ w2.calls = w.calls ∧ w2.useCount = w.useCount ∧
      ∀ (F2 : Server σ → List α → Nat → CallbackUserdata U → R × Server σ)
        (servers2 : Nat → Server σ),
        ForwardToServer.Func F2 { w with servers := servers2 } args userdata
          = some { w2 with servers := servers2 } := by
  refine ⟨deleteUserdata w userdata, ?_, rfl, rfl, rfl, ?_⟩
  · simp only [ForwardToServer.Func, ForwardToServer.UntypedCallbackImpl.ForwardToServer, hd]
    rw [if_pos hx]
  · intro F2 servers2
    have hx2 : expired { w with servers := servers2 } d.serverIsAlive = true := hx
    simp only [ForwardToServer.Func, ForwardToServer.UntypedCallbackImpl.ForwardToServer, hd]
    rw [if_pos hx2]
    rfl

/-- C1 at the sample world with no owner left of control block 3: the server at
address 7 and the empty list of invocations are as before. -/
theorem ForwardToServer_expired_leaves_server_witness :
    (sampleWorld 0).heap 40 = some sampleData ∧
    expired (sampleWorld 0) sampleData.serverIsAlive = true ∧
    ∃ w2, ForwardToServer.Func sampleHandler (sampleWorld 0) [1, 2] 40 = some w2 ∧
      w2.servers = (sampleWorld 0).servers ∧ w2.calls = (sampleWorld 0).calls :=
  ⟨by decide, by decide,
   match ForwardToServer_expired_leaves_server sampleHandler (sampleWorld 0) [1, 2] 40
       sampleData (by decide) (by decide) with
   | ⟨w2, h1, h2, h3, _, _⟩ => ⟨w2, h1, h2, h3⟩⟩

/-! ### C2: a live observer forwards to the handler -/

/-- C2.  When the record `d` at `userdata` has a liveness observer that has not
expired, the callable makes exactly one handler invocation: the list of
invocations grows by the single entry (server `d.server`, the arguments `args`
in their order, the pointer `userdata`, the record `d`), the Server object at
`d.server` becomes what the handler makes of it on those arguments, and every
other Server object is as before. -/
theorem ForwardToServer_alive_forwards
    (F : Server σ → List α → Nat → CallbackUserdata U → R × Server σ)
    (w : World σ α U) (args : List α) (userdata : Nat) (d : CallbackUserdata U)
    (hd : w.heap userdata = some d) (hx : expired w d.serverIsAlive = false) :
    ∃ w2, ForwardToServer.Func F w args userdata = some w2 ∧
      w2.calls =
        { server := d.server, args := args, userdata := userdata, data := d } :: w.calls ∧
      w2.servers d.server = (F (w.servers d.server) args userdata d).2 ∧
      ∀ q, q ≠ d.server → w2.servers q = w.servers q := by
  refine ⟨deleteUserdata (invokeHandler F w d.server args userdata d) userdata, ?_, rfl, ?_, ?_⟩
  · simp only [ForwardToServer.Func, ForwardToServer.UntypedCallbackImpl.ForwardToServer, hd]
    rw [hx]
    rfl
  · simp [deleteUserdata, invokeHandler]
  · intro q hq
    simp [deleteUserdata, invokeHandler, hq]

/-- C2 at the sample world with one owner of control block 3: the handler ran
once on server 7 with the arguments 1, 2 and the record at 40, and left 8 (the
sum 3 plus the request serial 5) in the server. -/
theorem ForwardToServer_alive_forwards_witness :
    (sampleWorld 1).heap 40 = some sampleData ∧
    expired (sampleWorld 1) sampleData.serverIsAlive = false ∧
    ∃ w2, ForwardToServer.Func sampleHandler (sampleWorld 1) [1, 2] 40 = some w2 ∧
      w2.calls = [{ server := 7, args := [1, 2], userdata := 40, data := sampleData }] ∧
      (w2.servers 7).members = [8] :=
  ⟨by decide, by decide,
   match ForwardToServer_alive_forwards sampleHandler (sampleWorld 1) [1, 2] 40
       sampleData (by decide) (by decide) with
   | ⟨w2, h1, h2, h3, _⟩ => ⟨w2, h1, h2, congrArg Server.members h3⟩⟩

/-! ### C3: the record is reclaimed once on both paths -/

/-- C3.  Let `MakeUserdata` on the server at `this` in world `w0` return the
pointer `p`, and let `w` be any later world in which the record created there
is still at `p` (it was handed to the backend and nothing else freed it).  One
firing of the callable in `w`, whether the observer has expired there or not,
gives `p` to `delete` exactly once (the list of deletions grows by the single
entry `p`), after it the record at `p` is no longer live, and every other
record is as before. -/
theorem MakeUserdata_record_reclaimed_once
    (F : Server σ → List α → Nat → CallbackUserdata U → R × Server σ)
    (w0 : World σ α U) (this : Nat) (fields : U)
    (w : World σ α U) (args : List α)
    (hheld : w.heap (Server.MakeUserdata w0 this fields).1 =
      (Server.MakeUserdata w0 this fields).2.heap (Server.MakeUserdata w0 this fields).1) :
    ∃ w2, ForwardToServer.Func F w args (Server.MakeUserdata w0 this fields).1 = some w2 ∧
      w2.deleted = (Server.MakeUserdata w0 this fields).1 :: w.deleted ∧
      w2.heap (Server.MakeUserdata w0 this fields).1 = none ∧
      ∀ q, q ≠ (Server.MakeUserdata w0 this fields).1 → w2.heap q = w.heap q := by
  have hrec : w.heap (Server.MakeUserdata w0 this fields).1 =
      some { server := this, serverIsAlive := (w0.servers this).mIsAlive, fields := fields } := by
    rw [hheld]
    simp [Server.MakeUserdata]
  cases hx : expired w (w0.servers this).mIsAlive with
  | true =>
    refine ⟨deleteUserdata w (Server.MakeUserdata w0 this fields).1, ?_, rfl, ?_, ?_⟩
    · simp only [ForwardToServer.Func, ForwardToServer.UntypedCallbackImpl.ForwardToServer, hrec]
      rw [hx]
      rfl
    · simp [deleteUserdata]
    · intro q hq
      simp [deleteUserdata, hq]
  | false =>
    refine ⟨deleteUserdata (invokeHandler F w this args (Server.MakeUserdata w0 this fields).1
        { server := this, serverIsAlive := (w0.servers this).mIsAlive, fields := fields })
        (Server.MakeUserdata w0 this fields).1, ?_, rfl, ?_, ?_⟩
    · simp only [ForwardToServer.Func, ForwardToServer.UntypedCallbackImpl.ForwardToServer, hrec]
      rw [hx]
      rfl
    · simp [deleteUserdata]
    · intro q hq
      simp [deleteUserdata, invokeHandler, hq]

/-- C3 at two concrete firings right after `MakeUserdata` on server 7: one in the
world where control block 3 has no owner left (no-op path) and one where it has
an owner (forwarding path).  In both the pointer 41 is deleted once and the
record is gone. -/
theorem MakeUserdata_record_reclaimed_once_witness :
    (∃ w2, ForwardToServer.Func sampleHandler
        (Server.MakeUserdata (sampleWorld 0) 7 sampleData.fields).2 [1, 2] 41 = some w2 ∧
      w2.deleted = [41] ∧ w2.heap 41 = none ∧ w2.calls = []) ∧
    (∃ w2, ForwardToServer.Func sampleHandler
        (Server.MakeUserdata (sampleWorld 1) 7 sampleData.fields).2 [1, 2] 41 = some w2 ∧
      w2.deleted = [41] ∧ w2.heap 41 = none ∧ w2.calls.length = 1) :=
  ⟨match MakeUserdata_record_reclaimed_once sampleHandler (sampleWorld 0) 7 sampleData.fields
       (Server.MakeUserdata (sampleWorld 0) 7 sampleData.fields).2 [1, 2] rfl with
   | ⟨w2, h1, h2, h3, _⟩ =>
     ⟨w2, h1, h2, h3, by
       have h := Option.some.inj (h1.symm.trans (by rfl :
         ForwardToServer.Func sampleHandler
           (Server.MakeUserdata (sampleWorld 0) 7 sampleData.fields).2 [1, 2] 41 =
         some (deleteUserdata (Server.MakeUserdata (sampleWorld 0) 7 sampleData.fields).2 41)))
       rw [h]; rfl⟩,
   match MakeUserdata_record_reclaimed_once sampleHandler (sampleWorld 1) 7 sampleData.fields
       (Server.MakeUserdata (sampleWorld 1) 7 sampleData.fields).2 [1, 2] rfl with
   | ⟨w2, h1, h2, h3, _⟩ =>
     ⟨w2, h1, h2, h3, by
       have h := Option.some.inj (h1.symm.trans (by rfl :
         ForwardToServer.Func sampleHandler
           (Server.MakeUserdata (sampleWorld 1) 7 sampleData.fields).2 [1, 2] 41 =
         some (deleteUserdata (invokeHandler sampleHandler
           (Server.MakeUserdata (sampleWorld 1) 7 sampleData.fields).2 7 [1, 2] 41 sampleData)
           41)))
       rw [h]; rfl⟩⟩

end server
end webnn_wire
